import Mathlib

/-!
Shallow embedding of the research-paper intake service (`src/file.py`):
the PDF text/metadata extractor, the two LLM wrapper functions, and the
Flask request handlers for upload, summarize, gap analysis and search,
together with proofs of the specification claims about them.

Python strings are modelled as Lean `String`s (lists of characters);
`str.lower()` and SQLite's `lower()` are modelled as ASCII lowercasing
(SQLite's `lower()` is exactly ASCII; Python's `str.lower()` agrees with
it on ASCII text).  `str.find`, slicing and `str.strip` are modelled with
Python's exact index semantics, including negative indices.
-/

/-- ASCII lowercasing of one character, as SQLite's `lower()` does and as
Python's `str.lower()` does on ASCII characters. -/
def lowCh (c : Char) : Char :=
  if 65 ≤ c.toNat ∧ c.toNat ≤ 90 then Char.ofNat (c.toNat + 32) else c

/-- Model of `s.lower()` on a Python string. -/
def lowerStr (s : String) : String := String.mk (s.data.map lowCh)

/-- Does the list `l` start with the list `pat` (element by element)? Used to
model substring occurrence at a position. -/
def startsWithL : List Char → List Char → Bool
  | [], _ => true
  | _ :: _, [] => false
  | a :: as, b :: bs => a == b && startsWithL as bs

/-- Does `sub` occur contiguously inside `s`?  (There is some position of `s`
at which `s` starts with `sub`.) -/
def containsSub (sub : List Char) : List Char → Bool
  | [] => startsWithL sub []
  | c :: cs => startsWithL sub (c :: cs) || containsSub sub cs

/-- Model of Python `s.find(sub, start)`: index of the first occurrence of
`sub` in `s` at a position `≥ start`, or `-1` when there is none. -/
def pyFindFrom (s sub : List Char) (start : Nat) : Int :=
  match (List.range (s.length + 1)).find?
      (fun j => decide (start ≤ j) && startsWithL sub (List.drop j s)) with
  | some j => Int.ofNat j
  | none => -1

/-- Resolve one Python slice endpoint: negative indices count from the end,
and everything is clamped into `[0, n]`. -/
def sliceIdx (n : Nat) (a : Int) : Nat :=
  if a < 0 then (Int.ofNat n + a).toNat else min a.toNat n

/-- Model of the Python slice `s[a:b]` (step 1), including the semantics of
negative endpoints such as `s[i:-1]`. -/
def pySlice (s : List Char) (a b : Int) : List Char :=
  List.drop (sliceIdx s.length a) (List.take (sliceIdx s.length b) s)

/-- The ASCII whitespace characters removed by Python's `str.strip()`. -/
def pySpace (c : Char) : Bool :=
  c == ' ' || c == '\t' || c == '\n' || c == '\r' ||
    c == Char.ofNat 11 || c == Char.ofNat 12

/-- Model of Python `s.strip()`: drop leading and trailing whitespace. -/
def pyStrip (l : List Char) : List Char :=
  ((l.dropWhile pySpace).reverse.dropWhile pySpace).reverse

/-- Model of Python `s.endswith(pat)`. -/
def pyEndsWith (s pat : String) : Bool :=
  startsWithL pat.data.reverse s.data.reverse

/-- The abstract-extraction heuristic of `extract_content_from_pdf`
(src/file.py lines 43-49): lowercase the text, find the first occurrence of
"abstract", and if present slice from 8 characters past it up to the result
of searching for a double newline from that same position, then strip. -/
def extractAbstract (content : String) : String :=
  let lower_content := content.data.map lowCh
  let abs_start := pyFindFrom lower_content ("abstract".data) 0
  if abs_start = -1 then ""
  else
    let abs_end := pyFindFrom lower_content ("\n\n".data) (abs_start + 8).toNat
    String.mk (pyStrip (pySlice content.data (abs_start + 8) abs_end))

/-- A parsed PDF as PyMuPDF presents it to `extract_content_from_pdf`: the
metadata dictionary and the per-page extracted texts. -/
structure PdfDoc where
  metadata : List (String × String)
  pages : List String
deriving DecidableEq

/-- Model of Python `dict.find`-style lookup: value of the first binding of
key `k`, if any. -/
def dictFind (d : List (String × String)) (k : String) : Option String :=
  (d.find? (fun kv => kv.fst == k)).map Prod.snd

/-- Model of Python `d.get(k, dflt)`: the bound value when the key is
present (even when that value is the empty string), otherwise `dflt`. -/
def dictGet (d : List (String × String)) (k dflt : String) : String :=
  match dictFind d k with
  | some v => v
  | none => dflt

/-- Embedding of `extract_content_from_pdf` (src/file.py lines 33-50):
returns `(title, authors, abstract, content)` where the content is the
page texts joined by newlines, title/authors come from the metadata
dictionary with placeholder defaults, and the abstract comes from the
heuristic above. -/
def extract_content_from_pdf (doc : PdfDoc) :
    String × String × String × String :=
  let content := String.intercalate "\n" doc.pages
  (dictGet doc.metadata "title" "Unknown Title",
   dictGet doc.metadata "author" "Unknown Authors",
   extractAbstract content,
   content)

/-- Python truthiness of `openai.api_key` (set by `os.getenv`): falsy when
the environment variable is absent (`None`) or bound to the empty string. -/
def keySet (key : Option String) : Bool :=
  match key with
  | none => false
  | some s => !(s == "")

/-- The prompt built by `llm_summarize` (src/file.py lines 92-94). -/
def sumPrompt (content : String) : String :=
  "Summarize this research paper content. Extract key findings, main contributions, " ++
    "research methodology, and results in bullet points:\n\n" ++ content

/-- The prompt built by `llm_research_gap_analysis` (src/file.py lines 129-131). -/
def gapPrompt (content : String) : String :=
  "Identify the research limitations, gaps, potential future work, " ++
    "and unexplored opportunities in the following paper content:\n\n" ++ content

/-- Embedding of `llm_summarize` (src/file.py lines 91-108).  The external
completion call (`openai.ChatCompletion.create` with model gpt-4 and
max_tokens 500, followed by extraction of the first choice's text) is
abstracted as `svc : String → Except String String`, where `Except.error e`
models the call raising an exception whose `str` is `e`. -/
def llm_summarize (key : Option String) (svc : String → Except String String)
    (content : String) : String :=
  if !(keySet key) then "LLM service not configured."
  else
    match svc (sumPrompt content) with
    | Except.ok r => r
    | Except.error e => "An error occurred: " ++ e

/-- Embedding of `llm_research_gap_analysis` (src/file.py lines 128-145),
identical to `llm_summarize` apart from the prompt. -/
def llm_research_gap_analysis (key : Option String)
    (svc : String → Except String String) (content : String) : String :=
  if !(keySet key) then "LLM service not configured."
  else
    match svc (gapPrompt content) with
    | Except.ok r => r
    | Except.error e => "An error occurred: " ++ e

/-- One row of the `papers` table. -/
structure PaperRow where
  id : Nat
  title : String
  authors : String
  abstract : String
  content : String
  filename : String
deriving DecidableEq

/-- The SQLite database: the three insert-only tables created by `init_db`. -/
structure DB where
  papers : List PaperRow
  summaries : List (Nat × String)
  gaps : List (Nat × String)
deriving DecidableEq

/-- The uploaded multipart file part: its client-supplied filename and the
parsed PDF it contains. -/
structure FilePart where
  filename : String
  doc : PdfDoc
deriving DecidableEq

/-- JSON body of a `/upload` response. -/
inductive UploadBody where
  | err (msg : String)
  | ok (paper_id : Nat) (title authors abstract filename : String)
deriving DecidableEq

/-- SQLite's id for a fresh row of `papers` (`c.lastrowid` with an INTEGER
PRIMARY KEY): one more than the largest existing id. -/
def nextId (db : DB) : Nat :=
  (db.papers.foldr (fun p m => max p.id m) 0) + 1

/-- Embedding of the `/upload` handler `upload_paper` (src/file.py lines
53-86).  Returns the JSON body with its HTTP status, and the new database
state.  A missing `file` part is `none`; writing the uploaded bytes to disk
is external and not part of the state. -/
def upload_paper (db : DB) (file : Option FilePart) :
    (UploadBody × Nat) × DB :=
  match file with
  | none => ((UploadBody.err "No file part", 400), db)
  | some f =>
    if f.filename = "" then ((UploadBody.err "No selected file", 400), db)
    else if pyEndsWith f.filename ".pdf" then
      match extract_content_from_pdf f.doc with
      | (title, authors, abstract, content) =>
        let pid := nextId db
        ((UploadBody.ok pid title authors abstract f.filename, 200),
         { db with papers :=
             db.papers ++ [⟨pid, title, authors, abstract, content, f.filename⟩] })
    else ((UploadBody.err "Invalid file type", 400), db)

/-- JSON body of a `/summarize/{id}` response. -/
inductive SumBody where
  | summary (s : String)
  | error (msg : String)
deriving DecidableEq

/-- JSON body of a `/gap_analysis/{id}` response. -/
inductive GapBody where
  | gaps (s : String)
  | error (msg : String)
deriving DecidableEq

/-- Embedding of the `/summarize/<int:paper_id>` handler `summarize_paper`
(src/file.py lines 111-125): look the paper up, 404 when absent, otherwise
summarize its content, insert one `(paper_id, summary)` row and return the
summary with status 200. -/
def summarize_paper (db : DB) (key : Option String)
    (svc : String → Except String String) (pid : Nat) :
    (SumBody × Nat) × DB :=
  match db.papers.find? (fun p => p.id == pid) with
  | none => ((SumBody.error "Paper not found", 404), db)
  | some row =>
    let s := llm_summarize key svc row.content
    ((SumBody.summary s, 200), { db with summaries := db.summaries ++ [(pid, s)] })

/-- Embedding of the `/gap_analysis/<int:paper_id>` handler `gap_analysis`
(src/file.py lines 148-162), the exact analogue of `summarize_paper` for the
`gaps` table. -/
def gap_analysis (db : DB) (key : Option String)
    (svc : String → Except String String) (pid : Nat) :
    (GapBody × Nat) × DB :=
  match db.papers.find? (fun p => p.id == pid) with
  | none => ((GapBody.error "Paper not found", 404), db)
  | some row =>
    let g := llm_research_gap_analysis key svc row.content
    ((GapBody.gaps g, 200), { db with gaps := db.gaps ++ [(pid, g)] })

/-- SQLite `LIKE` pattern matching, fueled so that it is structurally
recursive: `%` matches any sequence, `_` matches any single character, and
other pattern characters match ASCII-case-insensitively (SQLite's default).
The fuel only needs to exceed the total length of pattern plus subject. -/
def likeMatchF : Nat → List Char → List Char → Bool
  | 0, ps, s => ps.isEmpty && s.isEmpty
  | _ + 1, [], s => s.isEmpty
  | n + 1, p :: ps, s =>
    if p == '%' then
      likeMatchF n ps s ||
        (match s with
         | [] => false
         | _ :: cs => likeMatchF n (p :: ps) cs)
    else
      match s with
      | [] => false
      | c :: cs => (p == '_' || lowCh p == lowCh c) && likeMatchF n ps cs

/-- SQLite `LIKE`: does the subject `s` match the pattern `ps`? -/
def likeMatch (ps s : List Char) : Bool :=
  likeMatchF (ps.length + s.length + 1) ps s

/-- The LIKE pattern the `/search` handler builds from the (already
lowercased) keyword: `'%' + keyword + '%'`. -/
def likePat (kw : String) : List Char := '%' :: (kw.data ++ ['%'])

/-- The row returned for one paper by `/search`. -/
structure SearchResult where
  paper_id : Nat
  title : String
  authors : String
  abstract : String
deriving DecidableEq

/-- Projection of a `papers` row to the columns `/search` selects. -/
def mkResult (p : PaperRow) : SearchResult :=
  ⟨p.id, p.title, p.authors, p.abstract⟩

/-- The WHERE clause of the `/search` query for one row: the LIKE pattern
built from the lowercased keyword, tried against `lower()` of each of the
four text columns. -/
def rowMatches (kw : String) (p : PaperRow) : Bool :=
  likeMatch (likePat kw) (lowerStr p.title).data ||
    likeMatch (likePat kw) (lowerStr p.authors).data ||
    likeMatch (likePat kw) (lowerStr p.abstract).data ||
    likeMatch (likePat kw) (lowerStr p.content).data

/-- Embedding of the `/search` handler `search_papers` (src/file.py lines
169-190): lowercase the keyword, return `[]` when it is empty, otherwise
return the selected columns of the rows the SQL LIKE query matches, in
table order. -/
def search_papers (db : DB) (raw : String) : List SearchResult :=
  let kw := lowerStr raw
  if kw = "" then []
  else (db.papers.filter (rowMatches kw)).map mkResult

/-- Case-insensitive literal substring containment, the relation the spec
describes for `/search`. -/
def ciContains (needle hay : String) : Bool :=
  containsSub (lowerStr needle).data (lowerStr hay).data

/-- Transcription of the spec's description of `GET /search` (spec.md
section 6), for comparison with the implementation: an empty keyword yields
an empty array, and otherwise exactly the stored papers with the keyword as
a case-insensitive literal substring of title, authors, abstract or full
text are returned. -/
def searchSpec (db : DB) (raw : String) : List SearchResult :=
  if raw = "" then []
  else
    (db.papers.filter (fun p =>
        ciContains raw p.title || ciContains raw p.authors ||
          ciContains raw p.abstract || ciContains raw p.content)).map mkResult

/-- Does the string contain no SQL LIKE wildcard character? -/
def noWild (s : String) : Bool :=
  s.data.all (fun c => !(c == '%' || c == '_'))

/-! ### Character-level lemmas -/

theorem toNat_ofNat_valid (n : Nat) (h : n.isValidChar) :
    (Char.ofNat n).toNat = n := by
  simp [Char.ofNat, h, Char.ofNatAux, Char.toNat, UInt32.toNat,
    BitVec.toNat_ofNatLt]

theorem lowCh_toNat (c : Char) :
    (lowCh c).toNat =
      if 65 ≤ c.toNat ∧ c.toNat ≤ 90 then c.toNat + 32 else c.toNat := by
  unfold lowCh
  split
  · next h => simp [h, toNat_ofNat_valid _ (Or.inl (by omega : c.toNat + 32 < 55296))]
  · next h => simp [h]

theorem lowCh_of_not_upper (c : Char) (h : ¬(65 ≤ c.toNat ∧ c.toNat ≤ 90)) :
    lowCh c = c := by
  show (if 65 ≤ c.toNat ∧ c.toNat ≤ 90 then Char.ofNat (c.toNat + 32) else c) = c
  exact if_neg h

theorem lowCh_idem (c : Char) : lowCh (lowCh c) = lowCh c := by
  by_cases h : 65 ≤ c.toNat ∧ c.toNat ≤ 90
  · have ht : (lowCh c).toNat = c.toNat + 32 := by rw [lowCh_toNat]; simp [h]
    exact lowCh_of_not_upper _ (by omega)
  · simp only [lowCh_of_not_upper c h]

theorem map_lowCh_idem (l : List Char) :
    (l.map lowCh).map lowCh = l.map lowCh := by
  induction l with
  | nil => rfl
  | cons c cs ih => simp [ih, lowCh_idem]

theorem lowerStr_idem (s : String) : lowerStr (lowerStr s) = lowerStr s := by
  unfold lowerStr
  exact congrArg String.mk (map_lowCh_idem s.data)

theorem lowerStr_eq_empty (s : String) : lowerStr s = "" ↔ s = "" := by
  constructor
  · intro h
    have hd : (lowerStr s).data = ("" : String).data := by rw [h]
    have : s.data.map lowCh = [] := hd
    have hnil : s.data = [] := List.map_eq_nil_iff.mp this
    exact String.ext hnil
  · intro h; rw [h]; rfl

/-! ### LIKE-matching lemmas -/

theorem likeMatchF_irrel (k : Nat) :
    ∀ ps s n m, ps.length + s.length = k → k < n → k < m →
      likeMatchF n ps s = likeMatchF m ps s := by
  induction k using Nat.strong_induction_on with
  | _ k ih =>
    intro ps s n m hk hn hm
    obtain ⟨n', rfl⟩ : ∃ n', n = n' + 1 := ⟨n - 1, by omega⟩
    obtain ⟨m', rfl⟩ : ∃ m', m = m' + 1 := ⟨m - 1, by omega⟩
    cases ps with
    | nil => simp [likeMatchF]
    | cons p ps =>
      by_cases hp : p = '%'
      · subst hp
        cases s with
        | nil =>
          have hk' : ps.length + 1 = k := by simpa using hk
          have h1 := ih ps.length (by omega) ps [] n' m' (by simp) (by omega) (by omega)
          simp [likeMatchF, h1]
        | cons c cs =>
          have hk' : ps.length + cs.length + 2 = k := by
            simp [List.length_cons] at hk; omega
          have h1 := ih (ps.length + cs.length + 1) (by omega) ps (c :: cs) n' m'
            (by simp only [List.length_cons, List.length_nil]; omega) (by omega) (by omega)
          have h2 := ih (ps.length + cs.length + 1) (by omega) ('%' :: ps) cs n' m'
            (by simp only [List.length_cons, List.length_nil]; omega) (by omega) (by omega)
          simp [likeMatchF, h1, h2]
      · cases s with
        | nil => simp [likeMatchF, hp]
        | cons c cs =>
          have hk' : ps.length + cs.length + 2 = k := by
            simp [List.length_cons] at hk; omega
          have h1 := ih (ps.length + cs.length) (by omega) ps cs n' m'
            (by simp) (by omega) (by omega)
          simp [likeMatchF, hp, h1]

theorem likeMatchF_eq (ps s : List Char) (n : Nat) (h : ps.length + s.length < n) :
    likeMatchF n ps s = likeMatch ps s :=
  likeMatchF_irrel (ps.length + s.length) ps s n (ps.length + s.length + 1) rfl h
    (Nat.lt_succ_self _)

theorem likeMatch_nil (s : List Char) : likeMatch [] s = s.isEmpty := by
  cases s <;> rfl

theorem likeMatch_pct_nil (ps : List Char) :
    likeMatch ('%' :: ps) [] = likeMatch ps [] := by
  have h1 : likeMatch ('%' :: ps) [] =
      (likeMatchF (ps.length + 1 + 0) ps [] || false) := rfl
  rw [h1, likeMatchF_eq ps [] _ (by simp)]
  simp

theorem likeMatch_pct_cons (ps : List Char) (c : Char) (cs : List Char) :
    likeMatch ('%' :: ps) (c :: cs) =
      (likeMatch ps (c :: cs) || likeMatch ('%' :: ps) cs) := by
  have h1 : likeMatch ('%' :: ps) (c :: cs) =
      (likeMatchF (ps.length + 1 + (cs.length + 1)) ps (c :: cs) ||
        likeMatchF (ps.length + 1 + (cs.length + 1)) ('%' :: ps) cs) := rfl
  rw [h1, likeMatchF_eq ps (c :: cs) _ (by simp only [List.length_cons, List.length_nil]; omega),
    likeMatchF_eq ('%' :: ps) cs _ (by simp only [List.length_cons, List.length_nil]; omega)]

theorem likeMatch_lit_nil (p : Char) (ps : List Char) (hp : p ≠ '%') :
    likeMatch (p :: ps) [] = false := by
  have hb : (p == '%') = false := by simp [hp]
  have h1 : likeMatch (p :: ps) [] =
      (if (p == '%') = true then (likeMatchF (ps.length + 1 + 0) ps [] || false)
       else false) := rfl
  rw [h1]
  simp [hb]

theorem likeMatch_lit_cons (p : Char) (ps : List Char) (c : Char) (cs : List Char)
    (hp : p ≠ '%') :
    likeMatch (p :: ps) (c :: cs) =
      ((p == '_' || lowCh p == lowCh c) && likeMatch ps cs) := by
  have hb : (p == '%') = false := by simp [hp]
  have h1 : likeMatch (p :: ps) (c :: cs) =
      (if (p == '%') = true then
        (likeMatchF (ps.length + 1 + (cs.length + 1)) ps (c :: cs) ||
          likeMatchF (ps.length + 1 + (cs.length + 1)) (p :: ps) cs)
       else ((p == '_' || lowCh p == lowCh c) &&
          likeMatchF (ps.length + 1 + (cs.length + 1)) ps cs)) := rfl
  rw [h1, likeMatchF_eq ps cs _ (by omega)]
  simp [hb]

theorem likeMatch_pct_one (s : List Char) : likeMatch ['%'] s = true := by
  induction s with
  | nil => rfl
  | cons c cs ih => rw [likeMatch_pct_cons, likeMatch_nil]; simp [ih]

theorem likeMatch_pct_iff (ps s : List Char) :
    likeMatch ('%' :: ps) s = true ↔ ∃ j, likeMatch ps (List.drop j s) = true := by
  induction s with
  | nil =>
    rw [likeMatch_pct_nil]
    constructor
    · intro h; exact ⟨0, h⟩
    · rintro ⟨j, hj⟩; simpa using hj
  | cons c cs ih =>
    rw [likeMatch_pct_cons]
    constructor
    · intro h
      rw [Bool.or_eq_true] at h
      rcases h with h1 | h2
      · exact ⟨0, h1⟩
      · obtain ⟨j, hj⟩ := ih.mp h2
        exact ⟨j + 1, by simpa using hj⟩
    · rintro ⟨j, hj⟩
      rcases j with _ | j
      · rw [Bool.or_eq_true]; exact Or.inl hj
      · rw [Bool.or_eq_true]; exact Or.inr (ih.mpr ⟨j, by simpa using hj⟩)

theorem containsSub_iff (sub s : List Char) :
    containsSub sub s = true ↔ ∃ j, startsWithL sub (List.drop j s) = true := by
  induction s with
  | nil =>
    simp only [containsSub]
    constructor
    · intro h; exact ⟨0, h⟩
    · rintro ⟨j, hj⟩; simpa using hj
  | cons c cs ih =>
    simp only [containsSub]
    constructor
    · intro h
      rw [Bool.or_eq_true] at h
      rcases h with h1 | h2
      · exact ⟨0, h1⟩
      · obtain ⟨j, hj⟩ := ih.mp h2
        exact ⟨j + 1, by simpa using hj⟩
    · rintro ⟨j, hj⟩
      rcases j with _ | j
      · rw [Bool.or_eq_true]; exact Or.inl hj
      · rw [Bool.or_eq_true]; exact Or.inr (ih.mpr ⟨j, by simpa using hj⟩)

theorem likeMatch_lit_pct (kw : List Char)
    (hw : kw.all (fun c => !(c == '%' || c == '_')) = true) (s : List Char) :
    likeMatch (kw ++ ['%']) s = startsWithL (kw.map lowCh) (s.map lowCh) := by
  induction kw generalizing s with
  | nil => simp [likeMatch_pct_one, startsWithL]
  | cons p kw ih =>
    simp only [List.all_cons, Bool.and_eq_true, Bool.not_eq_true',
      Bool.or_eq_false_iff] at hw
    obtain ⟨⟨hp1, hp2⟩, hw'⟩ := hw
    have hp : p ≠ '%' := by intro h; subst h; simp at hp1
    cases s with
    | nil =>
      rw [List.cons_append, likeMatch_lit_nil p (kw ++ ['%']) hp]
      simp [startsWithL]
    | cons c cs =>
      rw [List.cons_append, likeMatch_lit_cons p (kw ++ ['%']) c cs hp, ih hw' cs]
      simp [startsWithL, hp2]

theorem likeMatch_pat_eq (kw : List Char)
    (hw : kw.all (fun c => !(c == '%' || c == '_')) = true) (s : List Char) :
    likeMatch ('%' :: (kw ++ ['%'])) s = containsSub (kw.map lowCh) (s.map lowCh) := by
  rw [Bool.eq_iff_iff, likeMatch_pct_iff, containsSub_iff]
  constructor
  · rintro ⟨j, hj⟩
    rw [likeMatch_lit_pct kw hw] at hj
    exact ⟨j, by rw [List.map_drop] at hj; exact hj⟩
  · rintro ⟨j, hj⟩
    refine ⟨j, ?_⟩
    rw [likeMatch_lit_pct kw hw, List.map_drop]
    exact hj

theorem lowerStr_data_map (x : String) :
    (lowerStr x).data.map lowCh = (lowerStr x).data :=
  map_lowCh_idem x.data

theorem rowMatches_eq (raw : String) (hw : noWild (lowerStr raw) = true)
    (p : PaperRow) :
    rowMatches (lowerStr raw) p =
      (ciContains raw p.title || ciContains raw p.authors ||
        ciContains raw p.abstract || ciContains raw p.content) := by
  unfold rowMatches ciContains likePat
  rw [likeMatch_pat_eq _ hw _, likeMatch_pat_eq _ hw _, likeMatch_pat_eq _ hw _,
    likeMatch_pat_eq _ hw _]
  rw [lowerStr_data_map raw, lowerStr_data_map p.title, lowerStr_data_map p.authors,
    lowerStr_data_map p.abstract, lowerStr_data_map p.content]


theorem likeMatch_all_pct (s : List Char) :
    likeMatch ['%', '%', '%'] s = true := by
  rw [show ('%' :: ['%', '%'] : List Char) = ['%', '%', '%'] from rfl] at *
  rw [likeMatch_pct_iff]
  refine ⟨0, ?_⟩
  rw [show (['%', '%'] : List Char) = '%' :: ['%'] from rfl, likeMatch_pct_iff]
  exact ⟨0, likeMatch_pct_one _⟩

theorem startsWithL_le (sub l : List Char) (h : startsWithL sub l = true) :
    sub.length ≤ l.length := by
  induction sub generalizing l with
  | nil => simp
  | cons a as ih =>
    cases l with
    | nil => simp [startsWithL] at h
    | cons b bs =>
      simp only [startsWithL, Bool.and_eq_true] at h
      have := ih bs h.2
      simp only [List.length_cons]
      omega

theorem pyFindFrom_eq_neg (s sub : List Char) (start : Nat)
    (h : ∀ j, startsWithL sub (List.drop j s) = false) :
    pyFindFrom s sub start = -1 := by
  unfold pyFindFrom
  have hn : (List.range (s.length + 1)).find?
      (fun j => decide (start ≤ j) && startsWithL sub (List.drop j s)) = none := by
    rw [List.find?_eq_none]
    intro j _
    simp [h j]
  rw [hn]

theorem containsSub_false (sub s : List Char) (h : containsSub sub s = false)
    (j : Nat) : startsWithL sub (List.drop j s) = false := by
  cases hx : startsWithL sub (List.drop j s) with
  | false => rfl
  | true =>
    have : containsSub sub s = true := (containsSub_iff sub s).mpr ⟨j, hx⟩
    rw [h] at this
    exact absurd this (by simp)

theorem pyFindFrom_ofNat (s sub : List Char) (start i : Nat)
    (h : pyFindFrom s sub start = Int.ofNat i) :
    startsWithL sub (List.drop i s) = true ∧ start ≤ i := by
  unfold pyFindFrom at h
  split at h
  · next j hf =>
    have hji : j = i := by
      rw [Int.ofNat_eq_natCast, Int.ofNat_eq_natCast] at h
      omega
    subst hji
    have hp := List.find?_some hf
    simp only [Bool.and_eq_true, decide_eq_true_eq] at hp
    exact ⟨hp.2, hp.1⟩
  · next hf =>
    rw [Int.ofNat_eq_natCast] at h
    exact absurd h (by omega)

/-! ### Claim theorems -/

/-- C1: evaluating the abstract heuristic at the specification's own example
input "Abstract\n\nThe quick brown fox.\n\nIntroduction...": the code
returns the empty string rather than "The quick brown fox.", because
`find('\n\n', abs_start + 8)` starts its search exactly at the double
newline that follows "Abstract", so the slice is empty. -/
theorem abstract_heuristic_at_spec_example :
    extractAbstract "Abstract\n\nThe quick brown fox.\n\nIntroduction..." = "" ∧
      extractAbstract "Abstract\n\nThe quick brown fox.\n\nIntroduction..." ≠
        "The quick brown fox." :=
  ⟨by decide, by decide⟩

/-- C7: when the lowercased text has no occurrence of "abstract", the
extracted abstract is the empty string. -/
theorem abstract_empty_when_absent (content : String)
    (h : containsSub ("abstract".data) (content.data.map lowCh) = false) :
    extractAbstract content = "" := by
  have hfind : pyFindFrom (content.data.map lowCh) ("abstract".data) 0 = -1 :=
    pyFindFrom_eq_neg _ _ _ (containsSub_false _ _ h)
  simp [extractAbstract, hfind]

/-- Witness for C7 at the concrete input "hello world". -/
theorem abstract_empty_when_absent_witness :
    containsSub ("abstract".data) (("hello world" : String).data.map lowCh) = false ∧
      extractAbstract "hello world" = "" :=
  ⟨by decide, abstract_empty_when_absent "hello world" (by decide)⟩

/-- C8: when "abstract" occurs (lowercased) at position i but no double
newline occurs at or after position i + 8, the failed find returns -1 and
the Python slice `content[i+8:-1]` therefore drops the final character:
the extracted abstract is the text from position i + 8 up to but excluding
the last character, stripped. -/
theorem abstract_no_double_newline (content : String) (i : Nat)
    (hfind : pyFindFrom (content.data.map lowCh) ("abstract".data) 0 = Int.ofNat i)
    (hnn : pyFindFrom (content.data.map lowCh) ("\n\n".data) (i + 8) = -1) :
    extractAbstract content =
      String.mk (pyStrip (List.drop (i + 8)
        (List.take (content.data.length - 1) content.data))) := by
  have hsw := (pyFindFrom_ofNat _ _ _ _ hfind).1
  have hlen : i + 8 ≤ content.data.length := by
    have h8 := startsWithL_le _ _ hsw
    rw [List.length_drop, List.length_map] at h8
    have habs : ("abstract".data).length = 8 := by decide
    rw [habs] at h8
    omega
  have e1 : (Int.ofNat i + 8).toNat = i + 8 := by
    rw [Int.ofNat_eq_natCast]; omega
  have e2 : sliceIdx content.data.length (Int.ofNat i + 8) = i + 8 := by
    unfold sliceIdx
    rw [if_neg (by rw [Int.ofNat_eq_natCast]; omega), e1]
    omega
  have e3 : sliceIdx content.data.length (-1) = content.data.length - 1 := by
    unfold sliceIdx
    rw [if_pos (by omega), Int.ofNat_eq_natCast]
    omega
  simp only [extractAbstract, hfind]
  rw [if_neg (by rw [Int.ofNat_eq_natCast]; omega), e1, hnn]
  unfold pySlice
  rw [e2, e3]

/-- Witness for C8 at the concrete input "Abstract hello": the occurrence is
at position 0, no double newline exists, and the result is "hell" (the
final character is dropped before stripping). -/
theorem abstract_no_double_newline_witness :
    pyFindFrom (("Abstract hello" : String).data.map lowCh) ("abstract".data) 0 =
        Int.ofNat 0 ∧
      pyFindFrom (("Abstract hello" : String).data.map lowCh) ("\n\n".data) (0 + 8) = -1 ∧
      extractAbstract "Abstract hello" =
        String.mk (pyStrip (List.drop (0 + 8)
          (List.take (("Abstract hello" : String).data.length - 1)
            ("Abstract hello" : String).data))) ∧
      extractAbstract "Abstract hello" = "hell" :=
  ⟨by decide, by decide,
    abstract_no_double_newline "Abstract hello" 0 (by decide) (by decide),
    by decide⟩

/-- C2 (amended): the placeholder strings are returned exactly when the
metadata keys are absent from the dictionary; a key that is present is
returned verbatim, even when its value is the empty string. -/
theorem metadata_title_authors (doc : PdfDoc) :
    (dictFind doc.metadata "title" = none →
      (extract_content_from_pdf doc).1 = "Unknown Title") ∧
    (∀ v, dictFind doc.metadata "title" = some v →
      (extract_content_from_pdf doc).1 = v) ∧
    (dictFind doc.metadata "author" = none →
      (extract_content_from_pdf doc).2.1 = "Unknown Authors") ∧
    (∀ v, dictFind doc.metadata "author" = some v →
      (extract_content_from_pdf doc).2.1 = v) := by
  refine ⟨fun h => ?_, fun v h => ?_, fun h => ?_, fun v h => ?_⟩ <;>
    simp [extract_content_from_pdf, dictGet, h]

/-- The metadata dictionary PyMuPDF produces for a PDF with no embedded
title or author: the keys are present and bound to empty strings. -/
def docEmptyMeta : PdfDoc := ⟨[("title", ""), ("author", "")], ["x"]⟩

/-- Counterexample to C2 as stated: for a PDF whose metadata title/author
fields are present but empty, the extractor returns the empty strings, not
the placeholders (`dict.get` only substitutes its default for absent keys). -/
theorem metadata_empty_not_placeholder :
    (extract_content_from_pdf docEmptyMeta).1 = "" ∧
      (extract_content_from_pdf docEmptyMeta).2.1 = "" ∧
      (extract_content_from_pdf docEmptyMeta).1 ≠ "Unknown Title" ∧
      (extract_content_from_pdf docEmptyMeta).2.1 ≠ "Unknown Authors" :=
  ⟨by decide, by decide, by decide, by decide⟩

/-- A PDF with embedded title "Foo" and author "Bar". -/
def docFooBar : PdfDoc := ⟨[("title", "Foo"), ("author", "Bar")], ["Hello"]⟩

/-- Witness for C2: a present title "Foo" / author "Bar" are returned
exactly. -/
theorem metadata_title_authors_witness :
    dictFind docFooBar.metadata "title" = some "Foo" ∧
      dictFind docFooBar.metadata "author" = some "Bar" ∧
      (extract_content_from_pdf docFooBar).1 = "Foo" ∧
      (extract_content_from_pdf docFooBar).2.1 = "Bar" :=
  ⟨by decide, by decide,
    (metadata_title_authors docFooBar).2.1 "Foo" (by decide),
    (metadata_title_authors docFooBar).2.2.2 "Bar" (by decide)⟩

/-- C3: both LLM wrappers are total functions returning a string for every
input; with no configured key (absent or empty) both return exactly the
sentinel string, and when the service call raises, the raised error text is
embedded in the returned message instead of propagating. -/
theorem llm_wrappers_contract (key : Option String)
    (svc : String → Except String String) (content : String) :
    (keySet key = false →
      llm_summarize key svc content = "LLM service not configured." ∧
      llm_research_gap_analysis key svc content = "LLM service not configured.") ∧
    (∀ e, keySet key = true → svc (sumPrompt content) = Except.error e →
      llm_summarize key svc content = "An error occurred: " ++ e) ∧
    (∀ e, keySet key = true → svc (gapPrompt content) = Except.error e →
      llm_research_gap_analysis key svc content = "An error occurred: " ++ e) := by
  refine ⟨fun h => ⟨?_, ?_⟩, fun e hk he => ?_, fun e hk he => ?_⟩ <;>
    simp [llm_summarize, llm_research_gap_analysis, *]

/-- A completion service that always raises. -/
def svcBoom : String → Except String String := fun _ => Except.error "boom"

/-- Witness for C3 at concrete inputs: the unconfigured-key sentinel on the
empty input string, and the error-embedding behavior with a configured key. -/
theorem llm_wrappers_contract_witness :
    keySet none = false ∧
      llm_summarize none svcBoom "" = "LLM service not configured." ∧
      llm_research_gap_analysis none svcBoom "" = "LLM service not configured." ∧
      keySet (some "k") = true ∧
      svcBoom (sumPrompt "") = Except.error "boom" ∧
      llm_summarize (some "k") svcBoom "" = "An error occurred: " ++ "boom" :=
  ⟨by decide,
    ((llm_wrappers_contract none svcBoom "").1 (by decide)).1,
    ((llm_wrappers_contract none svcBoom "").1 (by decide)).2,
    by decide, rfl,
    (llm_wrappers_contract (some "k") svcBoom "").2.1 "boom" (by decide) rfl⟩

/-- C5: every upload request with a missing file part, an empty filename, or
a filename not ending in ".pdf" is answered with status 400 and an error
body, and leaves the database (papers, summaries and gaps tables)
unchanged. -/
theorem upload_rejects_non_pdf (db : DB) (file : Option FilePart)
    (h : file = none ∨ ∃ f, file = some f ∧
        (f.filename = "" ∨ pyEndsWith f.filename ".pdf" = false)) :
    (upload_paper db file).2 = db ∧
      ∃ msg, (upload_paper db file).1 = (UploadBody.err msg, 400) := by
  rcases h with rfl | ⟨f, rfl, hf⟩
  · exact ⟨rfl, ⟨"No file part", rfl⟩⟩
  · by_cases he : f.filename = ""
    · refine ⟨?_, ⟨"No selected file", ?_⟩⟩ <;> simp [upload_paper, he]
    · have hnp : pyEndsWith f.filename ".pdf" = false := by
        rcases hf with h1 | h2
        · exact absurd h1 he
        · exact h2
      refine ⟨?_, ⟨"Invalid file type", ?_⟩⟩ <;> simp [upload_paper, he, hnp]

/-- The empty database. -/
def db0 : DB := ⟨[], [], []⟩

/-- An upload whose filename does not end in ".pdf". -/
def txtFile : FilePart := ⟨"a.txt", ⟨[], []⟩⟩

/-- Witness for C5: uploading "a.txt" to the empty store is rejected with
status 400 and the store is unchanged. -/
theorem upload_rejects_non_pdf_witness :
    (some txtFile = none ∨ ∃ f, some txtFile = some f ∧
        (f.filename = "" ∨ pyEndsWith f.filename ".pdf" = false)) ∧
      (upload_paper db0 (some txtFile)).2 = db0 ∧
      ∃ msg, (upload_paper db0 (some txtFile)).1 = (UploadBody.err msg, 400) :=
  ⟨Or.inr ⟨txtFile, rfl, Or.inr (by decide)⟩,
    upload_rejects_non_pdf db0 (some txtFile)
      (Or.inr ⟨txtFile, rfl, Or.inr (by decide)⟩)⟩

/-- C6: for a paper id with no row in the papers table, `/summarize/{id}`
answers 404 with body error "Paper not found" and leaves the database, in
particular the summaries table, unchanged. -/
theorem summarize_missing_404 (db : DB) (key : Option String)
    (svc : String → Except String String) (pid : Nat)
    (h : db.papers.find? (fun p => p.id == pid) = none) :
    summarize_paper db key svc pid = ((SumBody.error "Paper not found", 404), db) := by
  simp [summarize_paper, h]

/-- Witness for C6: id 7 in the empty store. -/
theorem summarize_missing_404_witness :
    db0.papers.find? (fun p => p.id == 7) = none ∧
      summarize_paper db0 none svcBoom 7 = ((SumBody.error "Paper not found", 404), db0) :=
  ⟨by decide, summarize_missing_404 db0 none svcBoom 7 (by decide)⟩

/-- C9: for a paper id whose row is found, `/summarize/{id}` answers 200
with the generated summary and appends exactly the one row `(paper_id,
summary)` to the summaries table, whatever string the LLM wrapper returned
(including the sentinel and error strings); `/gap_analysis/{id}` does the
analogous thing with the gaps table. -/
theorem summarize_gap_insert_row (db : DB) (key : Option String)
    (svc : String → Except String String) (pid : Nat) (row : PaperRow)
    (h : db.papers.find? (fun p => p.id == pid) = some row) :
    summarize_paper db key svc pid =
      ((SumBody.summary (llm_summarize key svc row.content), 200),
        { db with summaries :=
            db.summaries ++ [(pid, llm_summarize key svc row.content)] }) ∧
    gap_analysis db key svc pid =
      ((GapBody.gaps (llm_research_gap_analysis key svc row.content), 200),
        { db with gaps :=
            db.gaps ++ [(pid, llm_research_gap_analysis key svc row.content)] }) := by
  constructor <;> simp [summarize_paper, gap_analysis, h]

/-- A one-paper store for the C9 witness. -/
def paperB : PaperRow := ⟨1, "t", "a", "ab", "c", "f.pdf"⟩

/-- The store holding only that paper. -/
def dbB : DB := ⟨[paperB], [], []⟩

/-- Witness for C9: with no API key configured, summarizing paper 1 stores
the sentinel string as its summary and gap analysis stores it as its gaps
row. -/
theorem summarize_gap_insert_row_witness :
    dbB.papers.find? (fun p => p.id == 1) = some paperB ∧
      summarize_paper dbB none svcBoom 1 =
        ((SumBody.summary (llm_summarize none svcBoom paperB.content), 200),
          { dbB with summaries :=
              dbB.summaries ++ [(1, llm_summarize none svcBoom paperB.content)] }) ∧
      llm_summarize none svcBoom paperB.content = "LLM service not configured." :=
  ⟨by decide,
    (summarize_gap_insert_row dbB none svcBoom 1 paperB (by decide)).1,
    by decide⟩

/-- The paper used by the search counterexamples: none of its fields
contains a percent sign or any occurrence of the probed keywords. -/
def paperA : PaperRow := ⟨1, "alpha", "beta", "gamma", "delta", "a.pdf"⟩

/-- A store holding only that paper. -/
def dbA : DB := ⟨[paperA], [], []⟩

/-- Counterexample to C4 as stated: for the keyword "%", `/search` returns
the stored paper even though "%" is not a literal substring of any of its
fields, so the result differs from the spec's substring semantics. -/
theorem search_wildcard_counterexample :
    search_papers dbA "%" ≠ searchSpec dbA "%" ∧
      search_papers dbA "%" = [mkResult paperA] ∧
      searchSpec dbA "%" = [] :=
  ⟨by decide, by decide, by decide⟩

/-- C4 (amended): for every store and every keyword whose lowercased form
contains no SQL LIKE wildcard character ('%' or '_'), `/search` returns
exactly the `{paper_id, title, authors, abstract}` rows of the stored
papers having the keyword as a case-insensitive substring of title,
authors, abstract or full text, and the empty keyword returns the empty
array; keywords containing a wildcard can escape the substring semantics. -/
theorem search_matches_spec_no_wildcards (db : DB) (raw : String)
    (hw : noWild (lowerStr raw) = true) :
    search_papers db raw = searchSpec db raw := by
  unfold search_papers searchSpec
  by_cases h : raw = ""
  · subst h
    simp [lowerStr]
  · have h2 : ¬(lowerStr raw = "") := fun hh => h ((lowerStr_eq_empty raw).mp hh)
    rw [if_neg h2, if_neg h]
    congr 1
    apply List.filter_congr
    intro p _
    exact rowMatches_eq raw hw p

/-- Witness for C4 at the wildcard-free keyword "b" on the one-paper
store. -/
theorem search_matches_spec_no_wildcards_witness :
    noWild (lowerStr "b") = true ∧
      search_papers dbA "b" = searchSpec dbA "b" ∧
      search_papers dbA "b" = [mkResult paperA] :=
  ⟨by decide, search_matches_spec_no_wildcards dbA "b" (by decide), by decide⟩

/-- C10: the keyword "%" is interpolated unescaped into the LIKE patterns,
so `/search?keyword=%` returns every stored paper — in particular the
store's papers need not contain "%" literally, as `paperA` shows. -/
theorem search_percent_returns_all :
    (∀ db : DB, search_papers db "%" = db.papers.map mkResult) ∧
      (ciContains "%" paperA.title || ciContains "%" paperA.authors ||
        ciContains "%" paperA.abstract || ciContains "%" paperA.content) = false := by
  constructor
  · intro db
    simp only [search_papers]
    rw [if_neg (show ¬(lowerStr "%" = "") by decide)]
    have hall : db.papers.filter (rowMatches (lowerStr "%")) = db.papers := by
      rw [List.filter_eq_self]
      intro p _
      have hp : likePat (lowerStr "%") = ['%', '%', '%'] := by decide
      unfold rowMatches
      rw [hp]
      simp [likeMatch_all_pct]
    rw [hall]
  · decide
